import Mathlib

/-!
Shallow embedding of the NUMA-aware CPU hint computation of
`pkg/agent/qrm-plugins/cpu/dynamicpolicy/policy_hint_handlers.go`
(katalyst-core).  Go maps carrying an iteration order in the source are
embedded as association lists; CPU sets are embedded as `Finset ℕ`;
fallible Go functions returning `(T, error)` become `Except String T`.
The concurrent per-NUMA fan-out of the affinity counters writes disjoint
slots and joins before reduction, so it is embedded as a sequential map
followed by the same ordered reduction.
-/

set_option autoImplicit false

namespace Katalyst

/-- Decidable equality of `Except` values, used to evaluate the embedded
fallible functions on concrete inputs. -/
instance instDecidableEqExcept {ε α : Type} [DecidableEq ε] [DecidableEq α] :
    DecidableEq (Except ε α) := fun a b =>
  match a, b with
  | .error e, .error f =>
    if h : e = f then isTrue (congrArg Except.error h)
    else isFalse (fun hh => h (Except.error.inj hh))
  | .error _, .ok _ => isFalse (fun hh => Except.noConfusion hh)
  | .ok _, .error _ => isFalse (fun hh => Except.noConfusion hh)
  | .ok x, .ok y =>
    if h : x = y then isTrue (congrArg Except.ok h)
    else isFalse (fun hh => h (Except.ok.inj hh))

/-- Zone qualifier of a selector: the match is scoped either to one NUMA
node or to the whole socket (`PodAnnotationMicroTopologyAffinitySocket`). -/
inductive Zone where
  | numaNode
  | socket
deriving DecidableEq

/-- A required-match clause (`apiconsts.Selector`): label key/value pairs
plus a zone qualifier. -/
structure Selector where
  matchLabels : List (String × String)
  zone : Zone
deriving DecidableEq

/-- Parsed inter-pod affinity descriptor (`util.MicroTopologyPodAffnity`).
`affinity = none` embeds a nil `Affinity` pointer; `some l` embeds a
non-nil pointer whose `Required` list is `l`. Likewise for `antiAffinity`. -/
structure MicroTopologyPodAffnity where
  affinity : Option (List Selector)
  antiAffinity : Option (List Selector)
deriving DecidableEq

/-- One allocation entry (`state.AllocationInfo`) as far as the hint
handlers read it: its labels, whether its
`PodAnnotationMicroTopologyInterPodAntiAffinity` annotation string is
non-empty, and the result of `util.UnmarshalAffinity` on its annotations
(`none` embeds a parse failure). -/
structure AllocationInfo where
  labels : List (String × String)
  antiAffinityAnnotPresent : Bool
  parsedAffinity : Option MicroTopologyPodAffnity
deriving DecidableEq

/-- Per-NUMA allocation record (`state.NUMANodeState`): total CPUs of the
node, the allocated CPU set, and the pod entries resident on the node.
`podEntries` lists pods, each pod being the list of its container
entries, in the iteration order the Go maps happen to produce. -/
structure NUMANodeState where
  totalCPUs : Finset ℕ
  allocatedCPUSet : Finset ℕ
  podEntries : List (List AllocationInfo)
deriving DecidableEq

/-- The `state.NUMANodeMap` snapshot: NUMA id keyed association list.  A
key mapped to `none` embeds a nil `*NUMANodeState` pointer; a key absent
from the list embeds a key absent from the Go map (both read as nil). -/
abbrev MachineState := List (ℕ × Option NUMANodeState)

/-- Look a NUMA node's state up in the snapshot, nil pointers and missing
keys both yielding `none`, exactly as `machineState[nodeID]` does. -/
def msLookup (ms : MachineState) (n : ℕ) : Option NUMANodeState :=
  (List.lookup n ms).join

/-- Machine topology (`machine.CPUTopology`) as far as the hint handlers
read it: CPU/NUMA/socket counts and the NUMA-to-socket map backing
`CPUDetails.SocketsInNUMANodes` / `NUMANodesInSockets`. -/
structure CPUTopology where
  numCPUs : ℕ
  numNUMANodes : ℕ
  numSockets : ℕ
  socketMap : List (ℕ × ℕ)
deriving DecidableEq

/-- NUMA nodes belonging to a socket (`CPUDetails.NUMANodesInSockets`),
in the order of the topology's socket map. -/
def numaNodesInSockets (topo : CPUTopology) (socket : ℕ) : List ℕ :=
  (topo.socketMap.filter (fun p => p.2 = socket)).map Prod.fst

/-- The binding/exclusivity content of the request annotations:
`numaBinding` embeds `qosutil.AnnotationsIndicateNUMABinding`,
`numaExclusive` embeds `qosutil.AnnotationsIndicateNUMAExclusive`. -/
structure Annotations where
  numaBinding : Bool
  numaExclusive : Bool
deriving DecidableEq

/-- One topology hint (`pluginapi.TopologyHint`): the mask's NUMA ids in
ascending order (`machine.MaskToUInt64Array`) plus the preferred flag. -/
structure TopologyHint where
  nodes : List ℕ
  preferred : Bool
deriving DecidableEq

/-- Modelled from the spec: `GetAvailableCPUSet` of a node state is the
node's total CPUs minus its allocated set minus the globally reserved
CPUs ("available = total minus allocated minus globally reserved");
the function itself lives outside the verified sources. -/
def NUMANodeState.getAvailableCPUSet (st : NUMANodeState) (reserved : Finset ℕ) : Finset ℕ :=
  (st.totalCPUs \ st.allocatedCPUSet) \ reserved

/-- Modelled from the spec: `util.GetNUMANodesCountToFitCPUReq` computes
the minimum number of NUMA nodes whose combined CPU capacity can satisfy
the requested count, from the topology's per-node CPU counts, and fails
when no combination can ever satisfy the request; the function itself
lives outside the verified sources. -/
def getNUMANodesCountToFitCPUReq (req : ℕ) (topo : CPUTopology) : Except String ℕ :=
  if topo.numNUMANodes = 0 then .error "zero NUMA nodes in topology"
  else
    let cpusPerNUMA := topo.numCPUs / topo.numNUMANodes
    if cpusPerNUMA = 0 then .error "zero CPUs per NUMA node"
    else
      let needed := (req + cpusPerNUMA - 1) / cpusPerNUMA
      if topo.numNUMANodes < needed then .error "request can never fit the topology"
      else .ok needed

/-- Modelled from the spec: `machineInfo.NUMAsPerSocket` is the count of
NUMA nodes per socket, failing on a degenerate topology; the function
itself lives outside the verified sources. -/
def numasPerSocket (topo : CPUTopology) : Except String ℕ :=
  if topo.numSockets = 0 then .error "zero sockets in topology"
  else .ok (topo.numNUMANodes / topo.numSockets)

/-- Sockets of a node list, `none` when some node has no socket in the
topology map. -/
def socketsOfNodes (topo : CPUTopology) : List ℕ → Option (List ℕ)
  | [] => some []
  | n :: rest =>
    match List.lookup n topo.socketMap with
    | none => none
    | some s => (socketsOfNodes topo rest).map (s :: ·)

/-- Modelled from the spec: `machine.CheckNUMACrossSockets` determines
whether the mask's nodes span more than one socket, failing when a
node's socket cannot be resolved from the topology; the function itself
lives outside the verified sources. -/
def checkNUMACrossSockets (nodes : List ℕ) (topo : CPUTopology) : Except String Bool :=
  match socketsOfNodes topo nodes with
  | none => .error "failed to find the associated socket ID"
  | some socks => .ok (decide (1 < socks.dedup.length))

/-- Insert into a sorted list, the helper of `sortInts`. -/
def insertSorted (n : ℕ) : List ℕ → List ℕ
  | [] => [n]
  | m :: ms => if n ≤ m then n :: m :: ms else m :: insertSorted n ms

/-- Ascending insertion sort, embedding `sort.Ints` on the snapshot keys. -/
def sortInts (l : List ℕ) : List ℕ :=
  l.foldr insertSorted []

/-- All length-`k` combinations of a list, keeping relative order, in the
order of the `bitmask.IterateBitMasks` recursion: combinations using the
head first, then combinations of the tail. -/
def combinations : ℕ → List ℕ → List (List ℕ)
  | 0, _ => [[]]
  | _ + 1, [] => []
  | k + 1, x :: xs => (combinations k xs).map (x :: ·) ++ combinations (k + 1) xs

/-- All non-empty subsets of the node list in `bitmask.IterateBitMasks`
order: by increasing size, combinations within one size. -/
def allBitMasks (nodes : List ℕ) : List (List ℕ) :=
  (List.range nodes.length).flatMap (fun k => combinations (k + 1) nodes)

/-- The per-node loop inside the `IterateBitMasks` callback of
`calculateHints`: walk the mask's nodes, abandoning the mask (`none`)
when a node's state is nil or, for an exclusive request, when the node
already has allocations; otherwise accumulate the union of available
CPUs. -/
def gatherAvailable (ms : MachineState) (exclusive : Bool) (reserved : Finset ℕ) :
    List ℕ → Finset ℕ → Option (Finset ℕ)
  | [], acc => some acc
  | n :: rest, acc =>
    match msLookup ms n with
    | none => none
    | some st =>
      if exclusive = true ∧ 0 < st.allocatedCPUSet.card then none
      else gatherAvailable ms exclusive reserved rest (acc ∪ st.getAvailableCPUSet reserved)

/-- The body of the `IterateBitMasks` callback of `calculateHints`:
`none` embeds an early `return` that skips the mask, `some hint` embeds
appending a hint for the mask. -/
def processMask (topo : CPUTopology) (reservedCPUs : Finset ℕ) (reqInt minNeeded nps : ℕ)
    (ann : Annotations) (ms : MachineState) (mask : List ℕ) : Option TopologyHint :=
  let maskCount := mask.length
  if maskCount < minNeeded then none
  else if ann.numaBinding = true ∧ ann.numaExclusive = false ∧ 1 < maskCount then none
  else
    match gatherAvailable ms ann.numaExclusive reservedCPUs mask ∅ with
    | none => none
    | some avail =>
      if avail.card < reqInt then none
      else
        match checkNUMACrossSockets mask topo with
        | .error _ => none
        | .ok cross =>
          if maskCount ≤ nps ∧ cross = true then none
          else some { nodes := mask, preferred := decide (mask.length = minNeeded) }

/-- Embedding of `calculateHints`: the hard pre-checks (min node count,
the binding-without-exclusivity policy restriction, NUMAs per socket),
then the full bitmask enumeration, each mask either skipped or emitted
by `processMask`. -/
def calculateHints (topo : CPUTopology) (reservedCPUs : Finset ℕ) (reqInt : ℕ)
    (ms : MachineState) (ann : Annotations) : Except String (List TopologyHint) :=
  let numaNodes := sortInts (ms.map Prod.fst)
  match getNUMANodesCountToFitCPUReq reqInt topo with
  | .error e => .error ("GetNUMANodesCountToFitCPUReq failed with error: " ++ e)
  | .ok minNeeded =>
    if ann.numaBinding = true ∧ ann.numaExclusive = false ∧ 1 < minNeeded then
      .error "NUMA not exclusive binding container has request larger than 1 NUMA"
    else
      match numasPerSocket topo with
      | .error e => .error ("NUMAsPerSocket failed with error: " ++ e)
      | .ok nps =>
        .ok ((allBitMasks numaNodes).filterMap
          (processMask topo reservedCPUs reqInt minNeeded nps ann ms))

/-- The `util.TopologyAffinityCount` map from NUMA id to a match count,
embedded as an association list; absent keys read as zero. -/
abbrev TopologyAffinityCount := List (ℕ × ℤ)

/-- Read a count, absent keys yielding the Go zero value. -/
def tacGet (m : TopologyAffinityCount) (n : ℕ) : ℤ :=
  (List.lookup n m).getD 0

/-- Add `v` to the count of key `n` (`m[n] += v`). -/
def tacAdd (n : ℕ) (v : ℤ) : TopologyAffinityCount → TopologyAffinityCount
  | [] => [(n, v)]
  | (k, w) :: rest => if k = n then (k, w + v) :: rest else (k, w) :: tacAdd n v rest

/-- Embedding of `TopologyAffinityCount.Append`: key-wise sum of the
other map into this one. -/
def tacAppend (m other : TopologyAffinityCount) : TopologyAffinityCount :=
  other.foldl (fun acc kv => tacAdd kv.1 kv.2 acc) m

/-- Per-NUMA affinity record (`numaInfo`): aggregated labels (key to the
distinct values seen), socket and NUMA ids, and the anti-affinity
required selectors collected from resident entries. -/
structure NumaInfo where
  labels : List (String × List String)
  socketID : ℕ
  numaID : ℕ
  antiAffinityRequiredSelectors : List Selector
deriving DecidableEq

/-- Per-pod affinity record (`podInfo`): the request's labels and its
required affinity / anti-affinity selectors. -/
structure PodInfo where
  labels : List (String × String)
  affinityRequiredSelectors : List Selector
  antiAffinityRequiredSelectors : List Selector
deriving DecidableEq

/-- The transient `preFilterState` aggregate owned by the filter step. -/
structure PreFilterState where
  existingAntiAffinityCounts : TopologyAffinityCount
  affinityCounts : TopologyAffinityCount
  antiAffinityCounts : TopologyAffinityCount
  podAffinityInfo : PodInfo
  numaAffinityInfoList : List NumaInfo
deriving DecidableEq

/-- Add one value to the distinct-value list of a key, the helper of
`mergeNumaInfoMap`. -/
def addLabelValue (k v : String) : List (String × List String) → List (String × List String)
  | [] => [(k, [v])]
  | (k', vs) :: rest =>
    if k' = k then (if v ∈ vs then (k', vs) :: rest else (k', vs ++ [v]) :: rest)
    else (k', vs) :: addLabelValue k v rest

/-- Modelled from the spec: `util.MergeNumaInfoMap` merges one entry's
labels into the per-node aggregate mapping each label key to the set of
distinct values seen; the function itself lives outside the verified
sources. -/
def mergeNumaInfoMap (labels : List (String × String)) (acc : List (String × List String)) :
    List (String × List String) :=
  labels.foldl (fun a kv => addLabelValue kv.1 kv.2 a) acc

/-- One turn of the `PodEntries` loop in `getNumaNodesAffinityInfo`: the
inner container loop `break`s after its first entry, so only the pod's
first container entry merges its labels and, when its anti-affinity
annotation is non-empty, contributes its parsed anti-affinity required
selectors (a parse failure aborts the whole call). -/
def processPodFirstEntry (acc : NumaInfo) : List AllocationInfo → Except String NumaInfo
  | [] => .ok acc
  | a :: _ =>
    let acc' := { acc with labels := mergeNumaInfoMap a.labels acc.labels }
    if a.antiAffinityAnnotPresent then
      match a.parsedAffinity with
      | none => .error "unmarshalAffinity failed"
      | some pa =>
        match pa.antiAffinity with
        | none => .ok acc'
        | some sels =>
          .ok { acc' with antiAffinityRequiredSelectors :=
                  acc'.antiAffinityRequiredSelectors ++ sels }
    else .ok acc'

/-- The `PodEntries` loop of `getNumaNodesAffinityInfo` over one node's
pods: each pod's first entry folded into the record, a parse failure
aborting. -/
def processPodEntries (acc : NumaInfo) : List (List AllocationInfo) → Except String NumaInfo
  | [] => .ok acc
  | pod :: pods =>
    match processPodFirstEntry acc pod with
    | .error e => .error e
    | .ok acc' => processPodEntries acc' pods

/-- The per-node body of `getNumaNodesAffinityInfo`: resolve the node's
socket (erroring when `SocketsInNUMANodes` comes back empty), then walk
the node's pod entries. -/
def numaInfoForNode (topo : CPUTopology) (ms : MachineState) (i : ℕ) : Except String NumaInfo :=
  match List.lookup i topo.socketMap with
  | none => .error "failed to find the associated socket ID for the specified numanode"
  | some s =>
    processPodEntries
      { labels := [], socketID := s, numaID := i, antiAffinityRequiredSelectors := [] }
      (((msLookup ms i).map NUMANodeState.podEntries).getD [])

/-- The outer node loop of `getNumaNodesAffinityInfo`: one record
appended per node, any error aborting the whole call. -/
def numaInfosFor (topo : CPUTopology) (ms : MachineState) :
    List ℕ → Except String (List NumaInfo)
  | [] => .ok []
  | i :: rest =>
    match numaInfoForNode topo ms i with
    | .error e => .error e
    | .ok info =>
      match numaInfosFor topo ms rest with
      | .error e => .error e
      | .ok infos => .ok (info :: infos)

/-- Embedding of `getNumaNodesAffinityInfo`: one `numaInfo` per NUMA id
in `[0, numNUMANodes)`, failing when a node's socket cannot be resolved
or a contributing entry's affinity annotation cannot be parsed. -/
def getNumaNodesAffinityInfo (topo : CPUTopology) (ms : MachineState) :
    Except String (List NumaInfo) :=
  numaInfosFor topo ms (List.range topo.numNUMANodes)

/-- Embedding of `matchNUMAAffinity`: tally, over the selectors and their
label pairs, a count for the evaluated node — or for every node of its
socket when the selector is socket-scoped — whenever the pod's label
value equals the selector's value (Go map lookup defaults to `""`). -/
def matchNUMAAffinity (topo : CPUTopology) (selectors : List Selector)
    (labels : List (String × String)) (socket numa : ℕ) : TopologyAffinityCount :=
  selectors.foldl (fun m sel =>
    sel.matchLabels.foldl (fun m kv =>
      if (List.lookup kv.1 labels).getD "" = kv.2 then
        if sel.zone = Zone.socket then
          (numaNodesInSockets topo socket).foldl (fun m n => tacAdd n 1 m) m
        else tacAdd numa 1 m
      else m) m) []

/-- Embedding of `matchPodAffinity`: as `matchNUMAAffinity`, but against
a node's multi-valued aggregated labels — one increment per stored value
equal to the selector's value. -/
def matchPodAffinity (topo : CPUTopology) (selectors : List Selector)
    (labels : List (String × List String)) (socket numa : ℕ) : TopologyAffinityCount :=
  selectors.foldl (fun m sel =>
    sel.matchLabels.foldl (fun m kv =>
      (((List.lookup kv.1 labels).getD []).foldl (fun m numaVal =>
        if numaVal = kv.2 then
          if sel.zone = Zone.socket then
            (numaNodesInSockets topo socket).foldl (fun m n => tacAdd n 1 m) m
          else tacAdd numa 1 m
        else m) m)) m) []

/-- Embedding of `getExistingAntiAffinityCounts`: the per-node fan-out of
`matchNUMAAffinity` over the node list, reduced with `Append` in node
order into the state's count map. -/
def getExistingAntiAffinityCounts (topo : CPUTopology) (st : PreFilterState) : PreFilterState :=
  { st with existingAntiAffinityCounts :=
      ((st.numaAffinityInfoList.map (fun info =>
        matchNUMAAffinity topo info.antiAffinityRequiredSelectors
          st.podAffinityInfo.labels info.socketID info.numaID)).foldl
        tacAppend st.existingAntiAffinityCounts) }

/-- Embedding of `getAntiAffinityCounts`: the per-node fan-out of
`matchPodAffinity` with the pod's anti-affinity selectors, reduced with
`Append` in node order. -/
def getAntiAffinityCounts (topo : CPUTopology) (st : PreFilterState) : PreFilterState :=
  { st with antiAffinityCounts :=
      ((st.numaAffinityInfoList.map (fun info =>
        matchPodAffinity topo st.podAffinityInfo.antiAffinityRequiredSelectors
          info.labels info.socketID info.numaID)).foldl
        tacAppend st.antiAffinityCounts) }

/-- Embedding of `getAffinityCounts`: the per-node fan-out of
`matchPodAffinity` with the pod's affinity selectors, reduced with
`Append` in node order. -/
def getAffinityCounts (topo : CPUTopology) (st : PreFilterState) : PreFilterState :=
  { st with affinityCounts :=
      ((st.numaAffinityInfoList.map (fun info =>
        matchPodAffinity topo st.podAffinityInfo.affinityRequiredSelectors
          info.labels info.socketID info.numaID)).foldl
        tacAppend st.affinityCounts) }

/-- The request content the hint handlers read
(`pluginapi.ResourceRequest`): container type, the parsed requested
quantity (`util.GetQuantityFromResourceReq`, `none` embedding its
failure), labels, the result of `util.UnmarshalAffinity` on the
annotations (`none` embedding a parse failure), and the binding /
exclusivity annotation flags. -/
structure ResourceRequest where
  containerTypeSidecar : Bool
  quantity : Option ℕ
  labels : List (String × String)
  parsedAffinity : Option MicroTopologyPodAffnity
  annotations : Annotations
deriving DecidableEq

/-- Embedding of `requiredPodAffinityInfo`: project the parsed affinity
descriptor and the request labels into a `podInfo`; nil affinity or
anti-affinity stanzas contribute nil (empty) selector lists. -/
def requiredPodAffinityInfo (podAffinity : MicroTopologyPodAffnity)
    (req : ResourceRequest) : PodInfo :=
  { labels := req.labels
    affinityRequiredSelectors := podAffinity.affinity.getD []
    antiAffinityRequiredSelectors := podAffinity.antiAffinity.getD [] }

/-- Embedding of `prePodAffinityFilter`: parse the request's affinity
annotation; under NUMA exclusivity return no state (an error when an
affinity stanza is present); otherwise collect the per-NUMA affinity
info and compute the three count maps. -/
def prePodAffinityFilter (topo : CPUTopology) (ms : MachineState) (req : ResourceRequest) :
    Except String (Option PreFilterState) :=
  match req.parsedAffinity with
  | none => .error "unmarshalAffinity failed"
  | some podAffinity =>
    if req.annotations.numaExclusive then
      if podAffinity.affinity.isSome then
        .error "can not find required affinity numa nodes while exclusive is enabled"
      else .ok none
    else
      match getNumaNodesAffinityInfo topo ms with
      | .error e => .error e
      | .ok numaAffinityInfoList =>
        let st : PreFilterState :=
          { podAffinityInfo := requiredPodAffinityInfo podAffinity req
            numaAffinityInfoList := numaAffinityInfoList
            existingAntiAffinityCounts := []
            antiAffinityCounts := []
            affinityCounts := [] }
        .ok (some (getAffinityCounts topo (getAntiAffinityCounts topo
          (getExistingAntiAffinityCounts topo st))))

/-- Embedding of `hintPodAffinityFilter`: a hint is kept when every NUMA
node of its mask has no positive existing-anti-affinity count, no
positive anti-affinity count, and — when the pod declares required
affinity selectors — a positive affinity count. -/
def hintPodAffinityFilter (st : PreFilterState) (hint : TopologyHint) : Bool :=
  hint.nodes.all (fun numa =>
    !(decide (0 < tacGet st.existingAntiAffinityCounts numa)) &&
    !(decide (0 < tacGet st.antiAffinityCounts numa)) &&
    !(decide (0 < st.podAffinityInfo.affinityRequiredSelectors.length) &&
      decide (tacGet st.affinityCounts numa ≤ 0)))

/-- Embedding of `podAffinityFilter` for the CPU hint list: walk the
input hints in order and keep those accepted by `hintPodAffinityFilter`
(the enclosing single-key resource map of the Go function is elided). -/
def podAffinityFilter (st : PreFilterState) (hints : List TopologyHint) : List TopologyHint :=
  hints.foldl (fun acc hint =>
    if hintPodAffinityFilter st hint then acc ++ [hint] else acc) []

/-- A hint response's CPU entry: `none` embeds the nil hint list ("no
preference"), `some l` an explicit hint list. -/
structure HintsResponse where
  cpuHints : Option (List TopologyHint)
deriving DecidableEq

/-- A Go `(resp, err)` pair as returned by the hint handlers. -/
structure HandlerResult where
  resp : Option HintsResponse
  err : Option String
deriving DecidableEq

/-- The collaborator outcomes feeding `dedicatedCoresWithNUMABindingHintHandler`,
supplied to one call as data.  Modelled from the spec: `regeneratedHints`
embeds `cpuutil.RegenerateHints` on the stored allocation record (queried
only when `allocationInfoExists`), `regeneratedMachineState` embeds
`generateMachineStateFromPodEntries` after dropping the stale record, and
`extraStateHints` embeds `util.GetHintsFromExtraStateFile` (`none` when
the override file yields nothing); those collaborators live outside the
verified sources. -/
structure Policy where
  topology : CPUTopology
  reservedCPUs : Finset ℕ
  machineState : MachineState
  allocationInfoExists : Bool
  regeneratedHints : Option (List TopologyHint)
  regeneratedMachineState : Except String MachineState
  extraStateHints : Option (List TopologyHint)

/-- Embedding of `dedicatedCoresWithNUMABindingHintHandler`: sidecars get
no preference; otherwise pick hints from the stale-record regeneration,
then the extra state file, then a fresh `calculateHints`; finally run the
inter-pod affinity pre-filter, returning (nil hints, error) on its
failure, the hints unfiltered when it yields no state, and the filtered
hints otherwise. -/
def dedicatedCoresWithNUMABindingHintHandler (p : Policy) (req : ResourceRequest) :
    HandlerResult :=
  if req.containerTypeSidecar then { resp := some { cpuHints := none }, err := none }
  else
    match req.quantity with
    | none => { resp := none, err := some "getReqQuantityFromResourceReq failed" }
    | some reqInt =>
      let step1 : Except String (Option (List TopologyHint) × MachineState) :=
        if p.allocationInfoExists then
          match p.regeneratedHints with
          | some hs => .ok (some hs, p.machineState)
          | none =>
            match p.regeneratedMachineState with
            | .error e => .error ("GenerateMachineStateFromPodEntries failed with error: " ++ e)
            | .ok ms' => .ok (none, ms')
        else .ok (none, p.machineState)
      match step1 with
      | .error e => { resp := none, err := some e }
      | .ok (hints0, ms) =>
        let hints1 := match hints0 with
          | some hs => some hs
          | none => p.extraStateHints
        let calcStep : Except String (List TopologyHint) :=
          match hints1 with
          | some hs => .ok hs
          | none =>
            match calculateHints p.topology p.reservedCPUs reqInt ms req.annotations with
            | .error e => .error ("calculateHints failed with error: " ++ e)
            | .ok hs => .ok hs
        match calcStep with
        | .error e => { resp := none, err := some e }
        | .ok hints =>
          match prePodAffinityFilter p.topology p.machineState req with
          | .error e => { resp := some { cpuHints := none }, err := some e }
          | .ok none => { resp := some { cpuHints := some hints }, err := none }
          | .ok (some st) =>
            { resp := some { cpuHints := some (podAffinityFilter st hints) }, err := none }

/-- Embedding of `dedicatedCoresWithoutNUMABindingHintHandler`: the
unconditional "not supported" failure. -/
def dedicatedCoresWithoutNUMABindingHintHandler : HandlerResult :=
  { resp := none, err := some "not support dedicated_cores without NUMA binding" }

/-- Embedding of `dedicatedCoresHintHandler`: fail on a nil request, then
dispatch on the NUMA-binding annotation (`enable` to the binding
pipeline, anything else to the unsupported branch). -/
def dedicatedCoresHintHandler (p : Policy) (req : Option ResourceRequest) : HandlerResult :=
  match req with
  | none => { resp := none, err := some "dedicatedCoresHintHandler got nil req" }
  | some r =>
    if r.annotations.numaBinding then dedicatedCoresWithNUMABindingHintHandler p r
    else dedicatedCoresWithoutNUMABindingHintHandler

/-- The union of available CPUs over a node list, read off the snapshot;
nodes without a state contribute nothing.  This is the quantity the
capacity check of `calculateHints` compares against the request. -/
def availableUnion (ms : MachineState) (reserved : Finset ℕ) (nodes : List ℕ) : Finset ℕ :=
  nodes.foldl (fun acc n =>
    acc ∪ ((msLookup ms n).elim ∅ (fun st => st.getAvailableCPUSet reserved))) ∅

theorem gatherAvailable_some_lookup {ms : MachineState} {excl : Bool} {res : Finset ℕ} :
    ∀ {nodes : List ℕ} {acc s : Finset ℕ},
      gatherAvailable ms excl res nodes acc = some s →
      ∀ n ∈ nodes, msLookup ms n ≠ none := by
  intro nodes
  induction nodes with
  | nil => intro acc s _ n hn; cases hn
  | cons m rest ih =>
    intro acc s h n hn
    rw [gatherAvailable] at h
    cases hm : msLookup ms m with
    | none => simp only [hm] at h; cases h
    | some st =>
      simp only [hm] at h
      by_cases hx : excl = true ∧ 0 < st.allocatedCPUSet.card
      · rw [if_pos hx] at h; cases h
      · rw [if_neg hx] at h
        rcases List.mem_cons.mp hn with rfl | hn'
        · rw [hm]; exact fun hc => Option.noConfusion hc
        · exact ih h n hn'

theorem gatherAvailable_some_foldl {ms : MachineState} {excl : Bool} {res : Finset ℕ} :
    ∀ {nodes : List ℕ} {acc s : Finset ℕ},
      gatherAvailable ms excl res nodes acc = some s →
      s = nodes.foldl (fun acc n =>
        acc ∪ ((msLookup ms n).elim ∅ (fun st => st.getAvailableCPUSet res))) acc := by
  intro nodes
  induction nodes with
  | nil => intro acc s h; rw [gatherAvailable] at h; cases h; rfl
  | cons m rest ih =>
    intro acc s h
    rw [gatherAvailable] at h
    cases hm : msLookup ms m with
    | none => simp only [hm] at h; cases h
    | some st =>
      simp only [hm] at h
      by_cases hx : excl = true ∧ 0 < st.allocatedCPUSet.card
      · rw [if_pos hx] at h; cases h
      · rw [if_neg hx] at h
        simpa [hm] using ih h

theorem gatherAvailable_some_availableUnion {ms : MachineState} {excl : Bool} {res : Finset ℕ}
    {nodes : List ℕ} {s : Finset ℕ}
    (h : gatherAvailable ms excl res nodes ∅ = some s) :
    s = availableUnion ms res nodes :=
  gatherAvailable_some_foldl h

theorem processMask_eq_some {topo : CPUTopology} {res : Finset ℕ} {reqInt minN nps : ℕ}
    {ann : Annotations} {ms : MachineState} {mask : List ℕ} {hint : TopologyHint}
    (h : processMask topo res reqInt minN nps ann ms mask = some hint) :
    hint.nodes = mask ∧ hint.preferred = decide (mask.length = minN) ∧
    minN ≤ mask.length ∧
    ¬(ann.numaBinding = true ∧ ann.numaExclusive = false ∧ 1 < mask.length) ∧
    ∃ avail, gatherAvailable ms ann.numaExclusive res mask ∅ = some avail ∧
      reqInt ≤ avail.card ∧
      ∃ b, checkNUMACrossSockets mask topo = .ok b ∧ ¬(mask.length ≤ nps ∧ b = true) := by
  rw [processMask] at h
  by_cases h1 : mask.length < minN
  · rw [if_pos h1] at h; cases h
  · rw [if_neg h1] at h
    by_cases h2 : ann.numaBinding = true ∧ ann.numaExclusive = false ∧ 1 < mask.length
    · rw [if_pos h2] at h; cases h
    · rw [if_neg h2] at h
      cases hg : gatherAvailable ms ann.numaExclusive res mask ∅ with
      | none => simp only [hg] at h; cases h
      | some avail =>
        simp only [hg] at h
        by_cases h3 : avail.card < reqInt
        · rw [if_pos h3] at h; cases h
        · rw [if_neg h3] at h
          cases hc : checkNUMACrossSockets mask topo with
          | error e => simp only [hc] at h; cases h
          | ok b =>
            simp only [hc] at h
            by_cases h4 : mask.length ≤ nps ∧ b = true
            · rw [if_pos h4] at h; cases h
            · rw [if_neg h4] at h
              cases h
              exact ⟨rfl, rfl, Nat.le_of_not_lt h1, h2,
                avail, rfl, Nat.le_of_not_lt h3, b, rfl, h4⟩

theorem processMask_emits {topo : CPUTopology} {res : Finset ℕ} {reqInt minN nps : ℕ}
    {ann : Annotations} {ms : MachineState} {mask : List ℕ} {avail : Finset ℕ} {b : Bool}
    (h1 : minN ≤ mask.length)
    (h2 : ¬(ann.numaBinding = true ∧ ann.numaExclusive = false ∧ 1 < mask.length))
    (h3 : gatherAvailable ms ann.numaExclusive res mask ∅ = some avail)
    (h4 : reqInt ≤ avail.card)
    (h5 : checkNUMACrossSockets mask topo = .ok b)
    (h6 : ¬(mask.length ≤ nps ∧ b = true)) :
    processMask topo res reqInt minN nps ann ms mask =
      some { nodes := mask, preferred := decide (mask.length = minN) } := by
  rw [processMask]
  simp only [h3, h5, if_neg (Nat.not_lt.mpr h1), if_neg h2,
    if_neg (Nat.not_lt.mpr h4), if_neg h6]

theorem calculateHints_eq_ok_iff {topo : CPUTopology} {res : Finset ℕ} {reqInt : ℕ}
    {ms : MachineState} {ann : Annotations} {l : List TopologyHint} :
    calculateHints topo res reqInt ms ann = .ok l ↔
    ∃ minN nps, getNUMANodesCountToFitCPUReq reqInt topo = .ok minN ∧
      ¬(ann.numaBinding = true ∧ ann.numaExclusive = false ∧ 1 < minN) ∧
      numasPerSocket topo = .ok nps ∧
      l = (allBitMasks (sortInts (ms.map Prod.fst))).filterMap
            (processMask topo res reqInt minN nps ann ms) := by
  cases hg : getNUMANodesCountToFitCPUReq reqInt topo with
  | error e =>
    rw [calculateHints]
    simp only [hg]
    constructor
    · intro h; cases h
    · rintro ⟨minN, nps, hok, -⟩; cases hok
  | ok m =>
    rw [calculateHints]
    simp only [hg]
    by_cases hpol : ann.numaBinding = true ∧ ann.numaExclusive = false ∧ 1 < m
    · rw [if_pos hpol]
      constructor
      · intro h; cases h
      · rintro ⟨minN, nps, hok, hpol', -⟩
        cases hok; exact absurd hpol hpol'
    · rw [if_neg hpol]
      cases hs : numasPerSocket topo with
      | error e =>
        simp only [hs]
        constructor
        · intro h; cases h
        · rintro ⟨minN, nps, hok, -, hsok, -⟩; cases hok; cases hsok
      | ok nps =>
        simp only [hs]
        constructor
        · intro h; cases h; exact ⟨m, nps, rfl, hpol, rfl, rfl⟩
        · rintro ⟨minN, nps', hok, -, hsok, rfl⟩
          cases hok; cases hsok; rfl

theorem length_of_mem_combinations :
    ∀ (k : ℕ) (xs : List ℕ) (l : List ℕ), l ∈ combinations k xs → l.length = k := by
  intro k xs
  induction xs generalizing k with
  | nil =>
    intro l hl
    cases k with
    | zero => rw [combinations] at hl; simp at hl; simp [hl]
    | succ k => rw [combinations] at hl; cases hl
  | cons x xs ih =>
    intro l hl
    cases k with
    | zero => rw [combinations] at hl; simp at hl; simp [hl]
    | succ k =>
      rw [combinations] at hl
      rcases List.mem_append.mp hl with hl | hl
      · rcases List.mem_map.mp hl with ⟨t, ht, rfl⟩
        simp [ih k t ht]
      · exact ih (k + 1) l hl

theorem mem_allBitMasks {nodes mask : List ℕ} (h : mask ∈ allBitMasks nodes) :
    1 ≤ mask.length := by
  rw [allBitMasks] at h
  rcases List.mem_flatMap.mp h with ⟨k, -, hm⟩
  rw [length_of_mem_combinations (k + 1) nodes mask hm]
  exact Nat.succ_le_succ (Nat.zero_le k)

theorem podAffinityFilter_eq_filter (st : PreFilterState) (hints : List TopologyHint) :
    podAffinityFilter st hints = hints.filter (hintPodAffinityFilter st) := by
  have key : ∀ (hs : List TopologyHint) (acc : List TopologyHint),
      hs.foldl (fun acc hint =>
        if hintPodAffinityFilter st hint then acc ++ [hint] else acc) acc =
      acc ++ hs.filter (hintPodAffinityFilter st) := by
    intro hs
    induction hs with
    | nil => intro acc; simp
    | cons h t ih =>
      intro acc
      by_cases hh : hintPodAffinityFilter st h
      · simp [hh, ih]
      · simp [hh, ih]
  simpa using key hints []

theorem hintFilter_true_iff (st : PreFilterState) (hint : TopologyHint)
    (hpos : ∀ n, 0 ≤ tacGet st.existingAntiAffinityCounts n ∧
      0 ≤ tacGet st.antiAffinityCounts n) :
    hintPodAffinityFilter st hint = true ↔
      ∀ n ∈ hint.nodes,
        tacGet st.existingAntiAffinityCounts n = 0 ∧
        tacGet st.antiAffinityCounts n = 0 ∧
        (st.podAffinityInfo.affinityRequiredSelectors ≠ [] →
          0 < tacGet st.affinityCounts n) := by
  rw [hintPodAffinityFilter, List.all_eq_true]
  refine forall_congr' (fun n => imp_congr Iff.rfl ?_)
  obtain ⟨h1, h2⟩ := hpos n
  simp only [Bool.and_eq_true, Bool.not_eq_true', Bool.and_eq_false_iff,
    decide_eq_false_iff_not, not_lt]
  constructor
  · rintro ⟨⟨he, ha⟩, hq⟩
    refine ⟨le_antisymm he h1, le_antisymm ha h2, fun hsel => ?_⟩
    rcases hq with hq | hq
    · have := List.length_pos.mpr hsel
      omega
    · omega
  · rintro ⟨he, ha, hf⟩
    refine ⟨⟨le_of_eq he, le_of_eq ha⟩, ?_⟩
    by_cases hsel : st.podAffinityInfo.affinityRequiredSelectors = []
    · exact Or.inl (by simp [hsel])
    · exact Or.inr (by have := hf hsel; omega)

/-- C2: for every pre-filter state with the non-negative counts the
counters produce, a hint passes the filter exactly when every NUMA node
of its mask has zero existing-anti-affinity count, zero anti-affinity
count and — when the pod declares required affinity selectors — a
strictly positive affinity count; a hint with any failing node is
dropped entirely. -/
theorem claimC2_filter_characterization (st : PreFilterState)
    (hints : List TopologyHint) (hint : TopologyHint)
    (hpos : ∀ n, 0 ≤ tacGet st.existingAntiAffinityCounts n ∧
      0 ≤ tacGet st.antiAffinityCounts n) :
    hint ∈ podAffinityFilter st hints ↔
      hint ∈ hints ∧ ∀ n ∈ hint.nodes,
        tacGet st.existingAntiAffinityCounts n = 0 ∧
        tacGet st.antiAffinityCounts n = 0 ∧
        (st.podAffinityInfo.affinityRequiredSelectors ≠ [] →
          0 < tacGet st.affinityCounts n) := by
  rw [podAffinityFilter_eq_filter, List.mem_filter]
  exact and_congr_right (fun _ => hintFilter_true_iff st hint hpos)

/-- Witness for C2 at a concrete state with empty count maps and a
single single-node hint. -/
theorem claimC2_witness :
    let st : PreFilterState :=
      { existingAntiAffinityCounts := []
        affinityCounts := []
        antiAffinityCounts := []
        podAffinityInfo :=
          { labels := [], affinityRequiredSelectors := [], antiAffinityRequiredSelectors := [] }
        numaAffinityInfoList := [] }
    let hint : TopologyHint := { nodes := [0], preferred := true }
    hint ∈ podAffinityFilter st [hint] ↔
      hint ∈ [hint] ∧ ∀ n ∈ hint.nodes,
        tacGet st.existingAntiAffinityCounts n = 0 ∧
        tacGet st.antiAffinityCounts n = 0 ∧
        (st.podAffinityInfo.affinityRequiredSelectors ≠ [] →
          0 < tacGet st.affinityCounts n) :=
  claimC2_filter_characterization _ _ _ (fun _ => ⟨le_refl 0, le_refl 0⟩)

/-- C10: for every pre-filter state and input hint collection, the
filter's output is a subsequence of the input: every retained hint is
the identical value from the input, none is added or modified, and the
relative order is preserved (the output is exactly the ordered filter of
the input). -/
theorem claimC10_filter_sublist (st : PreFilterState) (hints : List TopologyHint) :
    (podAffinityFilter st hints).Sublist hints ∧
    podAffinityFilter st hints = hints.filter (hintPodAffinityFilter st) := by
  refine ⟨?_, podAffinityFilter_eq_filter st hints⟩
  rw [podAffinityFilter_eq_filter]
  exact List.filter_sublist hints

/-- Single-socket two-node topology used by the concrete evaluations:
8 CPUs, 4 per node, both nodes on socket 0. -/
def wTopo1 : CPUTopology :=
  { numCPUs := 8, numNUMANodes := 2, numSockets := 1, socketMap := [(0, 0), (1, 0)] }

/-- Empty node state holding CPUs 0-3. -/
def wSt0 : NUMANodeState :=
  { totalCPUs := {0, 1, 2, 3}, allocatedCPUSet := ∅, podEntries := [] }

/-- Empty node state holding CPUs 4-7. -/
def wSt1 : NUMANodeState :=
  { totalCPUs := {4, 5, 6, 7}, allocatedCPUSet := ∅, podEntries := [] }

/-- Snapshot with a nil state stored under NUMA node 1. -/
def wMsNil : MachineState := [(0, some wSt0), (1, none)]

/-- Snapshot with both nodes present. -/
def wMs2 : MachineState := [(0, some wSt0), (1, some wSt1)]

/-- Dedicated NUMA-binding and NUMA-exclusive annotations. -/
def wAnnExcl : Annotations := { numaBinding := true, numaExclusive := true }

/-- Dedicated NUMA-binding, non-exclusive annotations. -/
def wAnnBind : Annotations := { numaBinding := true, numaExclusive := false }

/-- C4: every hint emitted by the calculator covers the requested CPU
count — the union of available CPUs (total minus allocated minus
globally reserved) over the hint's nodes has size at least the request;
smaller masks are skipped, never emitted. -/
theorem claimC4_capacity (topo : CPUTopology) (res : Finset ℕ) (reqInt : ℕ)
    (ms : MachineState) (ann : Annotations) (l : List TopologyHint) (hint : TopologyHint)
    (hok : calculateHints topo res reqInt ms ann = .ok l) (hmem : hint ∈ l) :
    reqInt ≤ (availableUnion ms res hint.nodes).card := by
  rcases calculateHints_eq_ok_iff.mp hok with ⟨minN, nps, -, -, -, rfl⟩
  rcases List.mem_filterMap.mp hmem with ⟨mask, -, hpm⟩
  rcases processMask_eq_some hpm with ⟨hnodes, -, -, -, avail, hg, hcard, -⟩
  rw [hnodes, ← gatherAvailable_some_availableUnion hg]
  exact hcard

/-- Witness for C4: a concrete 4-CPU request on the two-node machine. -/
theorem claimC4_witness :
    calculateHints wTopo1 ∅ 4 wMs2 wAnnExcl =
      .ok [{ nodes := [0], preferred := true }, { nodes := [1], preferred := true },
           { nodes := [0, 1], preferred := false }] ∧
    4 ≤ (availableUnion wMs2 ∅ [0]).card :=
  ⟨by decide,
    claimC4_capacity wTopo1 ∅ 4 wMs2 wAnnExcl
      [{ nodes := [0], preferred := true }, { nodes := [1], preferred := true },
       { nodes := [0, 1], preferred := false }]
      { nodes := [0], preferred := true } (by decide) (by decide)⟩

/-- C5: an emitted hint is preferred exactly when its mask size equals
the computed minimum NUMA-node count for the request; no emitted hint of
any other size is preferred. -/
theorem claimC5_preferred (topo : CPUTopology) (res : Finset ℕ) (reqInt minN : ℕ)
    (ms : MachineState) (ann : Annotations) (l : List TopologyHint) (hint : TopologyHint)
    (hmin : getNUMANodesCountToFitCPUReq reqInt topo = .ok minN)
    (hok : calculateHints topo res reqInt ms ann = .ok l) (hmem : hint ∈ l) :
    hint.preferred = true ↔ hint.nodes.length = minN := by
  rcases calculateHints_eq_ok_iff.mp hok with ⟨minN', nps, hmin', -, -, rfl⟩
  rw [hmin] at hmin'
  obtain rfl := Except.ok.inj hmin'
  rcases List.mem_filterMap.mp hmem with ⟨mask, -, hpm⟩
  rcases processMask_eq_some hpm with ⟨hnodes, hpref, -⟩
  rw [hnodes, hpref]
  simp

/-- Witness for C5: the two-node preferred hint of the concrete run. -/
theorem claimC5_witness :
    ({ nodes := [0], preferred := true } : TopologyHint).preferred = true ↔
      ({ nodes := [0], preferred := true } : TopologyHint).nodes.length = 1 :=
  claimC5_preferred wTopo1 ∅ 4 1 wMs2 wAnnExcl
    [{ nodes := [0], preferred := true }, { nodes := [1], preferred := true },
     { nodes := [0, 1], preferred := false }]
    { nodes := [0], preferred := true } (by decide) (by decide) (by decide)

/-- C6: an emitted hint whose mask is no larger than the per-socket node
count never crosses sockets, and a mask larger than the per-socket node
count that passes every other check is emitted no matter whether it
crosses sockets. -/
theorem claimC6_cross_socket (topo : CPUTopology) (res : Finset ℕ) (reqInt nps : ℕ)
    (ms : MachineState) (ann : Annotations) (l : List TopologyHint)
    (hnps : numasPerSocket topo = .ok nps)
    (hok : calculateHints topo res reqInt ms ann = .ok l) :
    (∀ hint ∈ l, ∀ b, checkNUMACrossSockets hint.nodes topo = .ok b →
        hint.nodes.length ≤ nps → b = false) ∧
    (∀ (mask : List ℕ) (avail : Finset ℕ) (b : Bool) (minN : ℕ),
        minN ≤ mask.length →
        ¬(ann.numaBinding = true ∧ ann.numaExclusive = false ∧ 1 < mask.length) →
        gatherAvailable ms ann.numaExclusive res mask ∅ = some avail →
        reqInt ≤ avail.card →
        checkNUMACrossSockets mask topo = .ok b →
        nps < mask.length →
        processMask topo res reqInt minN nps ann ms mask =
          some { nodes := mask, preferred := decide (mask.length = minN) }) := by
  rcases calculateHints_eq_ok_iff.mp hok with ⟨minN, nps', hmin, hpol, hnps', rfl⟩
  rw [hnps] at hnps'
  obtain rfl := Except.ok.inj hnps'
  constructor
  · intro hint hmem b hb hlen
    rcases List.mem_filterMap.mp hmem with ⟨mask, -, hpm⟩
    rcases processMask_eq_some hpm with ⟨hnodes, -, -, -, avail, -, -, b', hb', hnb⟩
    rw [hnodes] at hb hlen
    rw [hb'] at hb
    obtain rfl := Except.ok.inj hb
    cases hbv : b'
    · rfl
    · exact absurd ⟨hlen, hbv⟩ hnb
  · intro mask avail b minN' h1 h2 h3 h4 h5 h6
    exact processMask_emits h1 h2 h3 h4 h5 (fun hc => absurd hc.1 (Nat.not_le.mpr h6))

/-- Two-socket four-node topology: 16 CPUs, 4 per node, nodes 0-1 on
socket 0 and nodes 2-3 on socket 1. -/
def wTopo2 : CPUTopology :=
  { numCPUs := 16, numNUMANodes := 4, numSockets := 2,
    socketMap := [(0, 0), (1, 0), (2, 1), (3, 1)] }

/-- Four-node snapshot with empty allocations, 4 CPUs per node. -/
def wMs4 : MachineState :=
  [(0, some { totalCPUs := {0, 1, 2, 3}, allocatedCPUSet := ∅, podEntries := [] }),
   (1, some { totalCPUs := {4, 5, 6, 7}, allocatedCPUSet := ∅, podEntries := [] }),
   (2, some { totalCPUs := {8, 9, 10, 11}, allocatedCPUSet := ∅, podEntries := [] }),
   (3, some { totalCPUs := {12, 13, 14, 15}, allocatedCPUSet := ∅, podEntries := [] })]

/-- The hint list for a 12-CPU exclusive request on the two-socket
machine: every 3-node mask crosses sockets but exceeds the per-socket
node count 2, so all are emitted. -/
def wHints6 : List TopologyHint :=
  [{ nodes := [0, 1, 2], preferred := true }, { nodes := [0, 1, 3], preferred := true },
   { nodes := [0, 2, 3], preferred := true }, { nodes := [1, 2, 3], preferred := true },
   { nodes := [0, 1, 2, 3], preferred := false }]

/-- Witness for C6: the concrete 12-CPU run on the two-socket machine,
whose per-socket node count is 2. -/
theorem claimC6_witness :
    (∀ hint ∈ wHints6,
      ∀ b, checkNUMACrossSockets hint.nodes wTopo2 = .ok b →
        hint.nodes.length ≤ 2 → b = false) ∧
    (∀ (mask : List ℕ) (avail : Finset ℕ) (b : Bool) (minN : ℕ),
        minN ≤ mask.length →
        ¬(wAnnExcl.numaBinding = true ∧ wAnnExcl.numaExclusive = false ∧ 1 < mask.length) →
        gatherAvailable wMs4 wAnnExcl.numaExclusive ∅ mask ∅ = some avail →
        12 ≤ avail.card →
        checkNUMACrossSockets mask wTopo2 = .ok b →
        2 < mask.length →
        processMask wTopo2 ∅ 12 minN 2 wAnnExcl wMs4 mask =
          some { nodes := mask, preferred := decide (mask.length = minN) }) :=
  claimC6_cross_socket wTopo2 ∅ 12 2 wMs4 wAnnExcl wHints6 (by decide) (by decide)

/-- C7: a NUMA-binding, non-exclusive request fails the whole call when
the computed minimum node count exceeds one, and when the call succeeds
every emitted hint has a single-node mask (every larger mask is
skipped). -/
theorem claimC7_binding_non_exclusive (topo : CPUTopology) (res : Finset ℕ) (reqInt : ℕ)
    (ms : MachineState) (ann : Annotations)
    (hb : ann.numaBinding = true) (he : ann.numaExclusive = false) :
    (∀ minN, getNUMANodesCountToFitCPUReq reqInt topo = .ok minN → 1 < minN →
      calculateHints topo res reqInt ms ann =
        .error "NUMA not exclusive binding container has request larger than 1 NUMA") ∧
    (∀ l, calculateHints topo res reqInt ms ann = .ok l →
      ∀ hint ∈ l, hint.nodes.length = 1) := by
  constructor
  · intro minN hmin hgt
    rw [calculateHints]
    simp only [hmin]
    rw [if_pos ⟨hb, he, hgt⟩]
  · intro l hok hint hmem
    rcases calculateHints_eq_ok_iff.mp hok with ⟨minN, nps, -, -, -, rfl⟩
    rcases List.mem_filterMap.mp hmem with ⟨mask, hmask, hpm⟩
    rcases processMask_eq_some hpm with ⟨hnodes, -, -, h2, -⟩
    have hlb := mem_allBitMasks hmask
    rw [hnodes]
    by_contra hne
    exact h2 ⟨hb, he, by omega⟩

/-- Witness for C7: binding-non-exclusive annotations on the two-node
machine; an 8-CPU request needs two nodes and fails, a 4-CPU request
yields single-node hints only. -/
theorem claimC7_witness :
    (∀ minN, getNUMANodesCountToFitCPUReq 8 wTopo1 = .ok minN → 1 < minN →
      calculateHints wTopo1 ∅ 8 wMs2 wAnnBind =
        .error "NUMA not exclusive binding container has request larger than 1 NUMA") ∧
    (∀ l, calculateHints wTopo1 ∅ 8 wMs2 wAnnBind = .ok l →
      ∀ hint ∈ l, hint.nodes.length = 1) :=
  claimC7_binding_non_exclusive wTopo1 ∅ 8 wMs2 wAnnBind (by decide) (by decide)

/-- C1 as written fails on the code: node 1 of this snapshot has a nil
state and is referenced by enumerated masks, yet `calculateHints`
returns a hint list and no error — the nil-state check inside the
enumeration callback only skips the offending mask. -/
theorem claimC1_counterexample :
    msLookup wMsNil 1 = none ∧
    [1] ∈ allBitMasks (sortInts (wMsNil.map Prod.fst)) ∧
    calculateHints wTopo1 ∅ 4 wMsNil wAnnExcl =
      .ok [{ nodes := [0], preferred := true }] := by
  refine ⟨by decide, by decide, by decide⟩

theorem processMask_none_of_cross_error {topo : CPUTopology} {res : Finset ℕ}
    {reqInt minN nps : ℕ} {ann : Annotations} {ms : MachineState} {mask : List ℕ} {e : String}
    (hc : checkNUMACrossSockets mask topo = .error e) :
    processMask topo res reqInt minN nps ann ms mask = none := by
  rw [processMask]
  by_cases h1 : mask.length < minN
  · rw [if_pos h1]
  · rw [if_neg h1]
    by_cases h2 : ann.numaBinding = true ∧ ann.numaExclusive = false ∧ 1 < mask.length
    · rw [if_pos h2]
    · rw [if_neg h2]
      cases hg : gatherAvailable ms ann.numaExclusive res mask ∅ with
      | none => simp only
      | some avail =>
        simp only
        by_cases h3 : avail.card < reqInt
        · rw [if_pos h3]
        · rw [if_neg h3]
          simp only [hc]

/-- C1 amended: once the pre-enumeration steps succeed (minimum node
count, the binding policy check, NUMAs per socket), `calculateHints`
returns a hint list without error for every snapshot — a mask holding a
nil-state node or failing the cross-socket lookup is skipped on its own,
and no emitted hint references a nil-state node. -/
theorem claimC1_soft_skip (topo : CPUTopology) (res : Finset ℕ) (reqInt minN nps : ℕ)
    (ms : MachineState) (ann : Annotations)
    (hmin : getNUMANodesCountToFitCPUReq reqInt topo = .ok minN)
    (hpol : ¬(ann.numaBinding = true ∧ ann.numaExclusive = false ∧ 1 < minN))
    (hnps : numasPerSocket topo = .ok nps) :
    (∃ l, calculateHints topo res reqInt ms ann = .ok l ∧
      ∀ hint ∈ l, ∀ n ∈ hint.nodes, msLookup ms n ≠ none) ∧
    (∀ (mask : List ℕ) (n : ℕ), n ∈ mask → msLookup ms n = none →
      processMask topo res reqInt minN nps ann ms mask = none) ∧
    (∀ (mask : List ℕ) (e : String), checkNUMACrossSockets mask topo = .error e →
      processMask topo res reqInt minN nps ann ms mask = none) := by
  refine ⟨⟨_, calculateHints_eq_ok_iff.mpr ⟨minN, nps, hmin, hpol, hnps, rfl⟩, ?_⟩, ?_, ?_⟩
  · intro hint hmem n hn
    rcases List.mem_filterMap.mp hmem with ⟨mask, -, hpm⟩
    rcases processMask_eq_some hpm with ⟨hnodes, -, -, -, avail, hg, -⟩
    exact gatherAvailable_some_lookup hg n (hnodes ▸ hn)
  · intro mask n hn hnil
    cases hp : processMask topo res reqInt minN nps ann ms mask with
    | none => rfl
    | some hint =>
      rcases processMask_eq_some hp with ⟨-, -, -, -, avail, hg, -⟩
      exact absurd hnil (gatherAvailable_some_lookup hg n hn)
  · intro mask e hc
    exact processMask_none_of_cross_error hc

/-- Witness for the amended C1 on the nil-state snapshot. -/
theorem claimC1_soft_skip_witness :
    (∃ l, calculateHints wTopo1 ∅ 4 wMsNil wAnnExcl = .ok l ∧
      ∀ hint ∈ l, ∀ n ∈ hint.nodes, msLookup wMsNil n ≠ none) ∧
    (∀ (mask : List ℕ) (n : ℕ), n ∈ mask → msLookup wMsNil n = none →
      processMask wTopo1 ∅ 4 1 2 wAnnExcl wMsNil mask = none) ∧
    (∀ (mask : List ℕ) (e : String), checkNUMACrossSockets mask wTopo1 = .error e →
      processMask wTopo1 ∅ 4 1 2 wAnnExcl wMsNil mask = none) :=
  claimC1_soft_skip wTopo1 ∅ 4 1 2 wMsNil wAnnExcl (by decide) (by decide) (by decide)

/-- C3: under NUMA exclusivity the pre-filter yields no filter state, so
the handler returns the calculator's hints unfiltered — unless the
parsed annotation carries an affinity stanza, in which case the
pre-filter errors and the handler surfaces that error with a nil hint
list. -/
theorem claimC3_exclusive_short_circuit (p : Policy) (req : ResourceRequest)
    (pa : MicroTopologyPodAffnity) (rq : ℕ) (hs : List TopologyHint)
    (hparse : req.parsedAffinity = some pa)
    (hexcl : req.annotations.numaExclusive = true) :
    (pa.affinity = none →
      prePodAffinityFilter p.topology p.machineState req = .ok none) ∧
    (pa.affinity ≠ none →
      prePodAffinityFilter p.topology p.machineState req =
        .error "can not find required affinity numa nodes while exclusive is enabled") ∧
    (pa.affinity = none → req.containerTypeSidecar = false → req.quantity = some rq →
      p.allocationInfoExists = false → p.extraStateHints = none →
      calculateHints p.topology p.reservedCPUs rq p.machineState req.annotations = .ok hs →
      dedicatedCoresWithNUMABindingHintHandler p req =
        { resp := some { cpuHints := some hs }, err := none }) ∧
    (pa.affinity ≠ none → req.containerTypeSidecar = false → req.quantity = some rq →
      p.allocationInfoExists = false → p.extraStateHints = none →
      calculateHints p.topology p.reservedCPUs rq p.machineState req.annotations = .ok hs →
      dedicatedCoresWithNUMABindingHintHandler p req =
        { resp := some { cpuHints := none },
          err := some "can not find required affinity numa nodes while exclusive is enabled" }) := by
  have hpf0 : pa.affinity = none →
      prePodAffinityFilter p.topology p.machineState req = .ok none := by
    intro haff
    rw [prePodAffinityFilter]
    simp [hparse, hexcl, haff]
  have hpf1 : pa.affinity ≠ none →
      prePodAffinityFilter p.topology p.machineState req =
        .error "can not find required affinity numa nodes while exclusive is enabled" := by
    intro haff
    rcases Option.ne_none_iff_exists'.mp haff with ⟨sels, hsels⟩
    rw [prePodAffinityFilter]
    simp [hparse, hexcl, hsels]
  refine ⟨hpf0, hpf1, ?_, ?_⟩
  · intro haff hsc hq halloc hextra hcalc
    rw [dedicatedCoresWithNUMABindingHintHandler]
    simp [hsc, hq, halloc, hextra, hcalc, hpf0 haff]
  · intro haff hsc hq halloc hextra hcalc
    rw [dedicatedCoresWithNUMABindingHintHandler]
    simp [hsc, hq, halloc, hextra, hcalc, hpf1 haff]

/-- Concrete policy value for the handler-level evaluations. -/
def wPolicy : Policy :=
  { topology := wTopo1
    reservedCPUs := ∅
    machineState := wMs2
    allocationInfoExists := false
    regeneratedHints := none
    regeneratedMachineState := .ok []
    extraStateHints := none }

/-- Exclusive request whose parsed affinity annotation has no stanza. -/
def wReqExcl : ResourceRequest :=
  { containerTypeSidecar := false
    quantity := some 4
    labels := []
    parsedAffinity := some { affinity := none, antiAffinity := none }
    annotations := wAnnExcl }

/-- Hint list the calculator produces for a 4-CPU exclusive request on
the two-node machine. -/
def wHints3 : List TopologyHint :=
  [{ nodes := [0], preferred := true }, { nodes := [1], preferred := true },
   { nodes := [0, 1], preferred := false }]

/-- Witness for C3 at the concrete exclusive request without an affinity
stanza. -/
theorem claimC3_witness :
    (({ affinity := none, antiAffinity := none } : MicroTopologyPodAffnity).affinity = none →
      prePodAffinityFilter wPolicy.topology wPolicy.machineState wReqExcl = .ok none) ∧
    (({ affinity := none, antiAffinity := none } : MicroTopologyPodAffnity).affinity ≠ none →
      prePodAffinityFilter wPolicy.topology wPolicy.machineState wReqExcl =
        .error "can not find required affinity numa nodes while exclusive is enabled") ∧
    (({ affinity := none, antiAffinity := none } : MicroTopologyPodAffnity).affinity = none →
      wReqExcl.containerTypeSidecar = false → wReqExcl.quantity = some 4 →
      wPolicy.allocationInfoExists = false → wPolicy.extraStateHints = none →
      calculateHints wPolicy.topology wPolicy.reservedCPUs 4 wPolicy.machineState
        wReqExcl.annotations = .ok wHints3 →
      dedicatedCoresWithNUMABindingHintHandler wPolicy wReqExcl =
        { resp := some { cpuHints := some wHints3 }, err := none }) ∧
    (({ affinity := none, antiAffinity := none } : MicroTopologyPodAffnity).affinity ≠ none →
      wReqExcl.containerTypeSidecar = false → wReqExcl.quantity = some 4 →
      wPolicy.allocationInfoExists = false → wPolicy.extraStateHints = none →
      calculateHints wPolicy.topology wPolicy.reservedCPUs 4 wPolicy.machineState
        wReqExcl.annotations = .ok wHints3 →
      dedicatedCoresWithNUMABindingHintHandler wPolicy wReqExcl =
        { resp := some { cpuHints := none },
          err := some "can not find required affinity numa nodes while exclusive is enabled" }) :=
  claimC3_exclusive_short_circuit wPolicy wReqExcl
    { affinity := none, antiAffinity := none } 4 wHints3 (by decide) (by decide)

/-- C9: a dedicated request whose NUMA-binding annotation is absent or
disabled always gets the explicit "not supported" error and never a hint
list. -/
theorem claimC9_not_supported (p : Policy) (req : ResourceRequest)
    (h : req.annotations.numaBinding = false) :
    dedicatedCoresHintHandler p (some req) =
      { resp := none, err := some "not support dedicated_cores without NUMA binding" } := by
  rw [dedicatedCoresHintHandler]
  simp [h, dedicatedCoresWithoutNUMABindingHintHandler]

/-- Witness for C9 at a concrete non-binding request. -/
theorem claimC9_witness :
    dedicatedCoresHintHandler wPolicy
      (some { containerTypeSidecar := false
              quantity := some 4
              labels := []
              parsedAffinity := some { affinity := none, antiAffinity := none }
              annotations := { numaBinding := false, numaExclusive := false } }) =
      { resp := none, err := some "not support dedicated_cores without NUMA binding" } :=
  claimC9_not_supported wPolicy
    { containerTypeSidecar := false
      quantity := some 4
      labels := []
      parsedAffinity := some { affinity := none, antiAffinity := none }
      annotations := { numaBinding := false, numaExclusive := false } }
    (by decide)

/-- First container entry of each pod resident on a node — the entries
the collector's broken-out loop actually reads. -/
def firstEntries (pods : List (List AllocationInfo)) : List AllocationInfo :=
  pods.filterMap List.head?

/-- Anti-affinity required selectors a first entry contributes: nothing
when its anti-affinity annotation is empty, otherwise the parsed
anti-affinity required list (empty when the stanza is nil). -/
def firstEntrySelectors (a : AllocationInfo) : List Selector :=
  if a.antiAffinityAnnotPresent then
    (a.parsedAffinity.bind MicroTopologyPodAffnity.antiAffinity).getD []
  else []

/-- Per-node record of the amended C8, written from the spec's words:
fail when some contributing first entry has a non-empty anti-affinity
annotation that does not parse; otherwise merge the labels of the first
entry of each resident pod and concatenate their parsed anti-affinity
required selectors. -/
def affinityInfoSpecNode (pods : List (List AllocationInfo)) (i s : ℕ) :
    Except String NumaInfo :=
  let fe := firstEntries pods
  if fe.any (fun a => a.antiAffinityAnnotPresent && a.parsedAffinity.isNone) then
    .error "unmarshalAffinity failed"
  else
    .ok { labels := fe.foldl (fun l a => mergeNumaInfoMap a.labels l) []
          socketID := s
          numaID := i
          antiAffinityRequiredSelectors := (fe.map firstEntrySelectors).flatten }

/-- Per-node body of the amended C8 including the socket resolution. -/
def affinityInfoSpecForNode (topo : CPUTopology) (ms : MachineState) (i : ℕ) :
    Except String NumaInfo :=
  match List.lookup i topo.socketMap with
  | none => .error "failed to find the associated socket ID for the specified numanode"
  | some s => affinityInfoSpecNode (((msLookup ms i).map NUMANodeState.podEntries).getD []) i s

/-- The amended C8 collector, one record per NUMA id. -/
def affinityInfoSpec (topo : CPUTopology) (ms : MachineState) :
    Except String (List NumaInfo) :=
  (List.range topo.numNUMANodes).mapM (affinityInfoSpecForNode topo ms)

theorem processPodEntries_spec :
    ∀ (pods : List (List AllocationInfo)) (acc : NumaInfo),
      processPodEntries acc pods =
        if (firstEntries pods).any
            (fun a => a.antiAffinityAnnotPresent && a.parsedAffinity.isNone) then
          .error "unmarshalAffinity failed"
        else
          .ok { labels := (firstEntries pods).foldl
                  (fun l a => mergeNumaInfoMap a.labels l) acc.labels
                socketID := acc.socketID
                numaID := acc.numaID
                antiAffinityRequiredSelectors := acc.antiAffinityRequiredSelectors ++
                  ((firstEntries pods).map firstEntrySelectors).flatten } := by
  intro pods
  induction pods with
  | nil =>
    intro acc
    simp [processPodEntries, firstEntries]
  | cons pod pods ih =>
    intro acc
    cases pod with
    | nil =>
      rw [processPodEntries]
      simp only [processPodFirstEntry]
      rw [ih acc]
      simp [firstEntries]
    | cons a rest =>
      rw [processPodEntries]
      rw [processPodFirstEntry]
      cases hp : a.antiAffinityAnnotPresent with
      | false =>
        simp only [Bool.false_eq_true, if_false]
        rw [ih _]
        simp [firstEntries, firstEntrySelectors, hp]
      | true =>
        simp only [if_true]
        cases hpa : a.parsedAffinity with
        | none =>
          simp [firstEntries, hp, hpa]
        | some pa =>
          cases hpaa : pa.antiAffinity with
          | none =>
            simp only [hpaa]
            rw [ih _]
            simp [firstEntries, firstEntrySelectors, hp, hpa, hpaa]
          | some sels =>
            simp only [hpaa]
            rw [ih _]
            simp [firstEntries, firstEntrySelectors, hp, hpa, hpaa]

theorem numaInfoForNode_spec (topo : CPUTopology) (ms : MachineState) (i : ℕ) :
    numaInfoForNode topo ms i = affinityInfoSpecForNode topo ms i := by
  rw [numaInfoForNode, affinityInfoSpecForNode]
  cases hs : List.lookup i topo.socketMap with
  | none => rfl
  | some s => simp [processPodEntries_spec, affinityInfoSpecNode]

theorem except_bind_error {ε α β : Type} (e : ε) (f : α → Except ε β) :
    (Except.error e >>= f) = Except.error e := rfl

theorem except_bind_ok {ε α β : Type} (a : α) (f : α → Except ε β) :
    (Except.ok a >>= f) = f a := rfl

theorem except_pure_eq_ok {ε α : Type} (a : α) :
    (pure a : Except ε α) = Except.ok a := rfl

theorem numaInfosFor_eq_mapM (topo : CPUTopology) (ms : MachineState) :
    ∀ l : List ℕ, numaInfosFor topo ms l = l.mapM (affinityInfoSpecForNode topo ms) := by
  intro l
  induction l with
  | nil => rfl
  | cons i rest ih =>
    rw [numaInfosFor, numaInfoForNode_spec, List.mapM_cons]
    cases hv : affinityInfoSpecForNode topo ms i with
    | error e => simp [except_bind_error]
    | ok info =>
      simp only [except_bind_ok, except_pure_eq_ok]
      rw [ih]
      cases hrest : rest.mapM (affinityInfoSpecForNode topo ms) with
      | error e => simp [except_bind_error]
      | ok infos => simp [except_bind_ok, except_pure_eq_ok]

/-- C8 amended: the collector builds, per NUMA node, the socket id, the
labels merged from the first entry of each resident pod (not from every
entry — the container loop breaks after one), and the concatenation of
those first entries' parsed anti-affinity required selectors, failing
when such a first entry's non-empty anti-affinity annotation does not
parse or a node's socket cannot be resolved; the embedded collector
equals this specification on every snapshot. -/
theorem claimC8_first_entry_refinement (topo : CPUTopology) (ms : MachineState) :
    getNumaNodesAffinityInfo topo ms = affinityInfoSpec topo ms := by
  rw [getNumaNodesAffinityInfo, affinityInfoSpec]
  exact numaInfosFor_eq_mapM topo ms (List.range topo.numNUMANodes)

/-- Entry with label k1=v1 and no affinity annotation. -/
def wEntry1 : AllocationInfo :=
  { labels := [("k1", "v1")]
    antiAffinityAnnotPresent := false
    parsedAffinity := some { affinity := none, antiAffinity := none } }

/-- Entry with label k2=v2 and no affinity annotation, second container
of the same pod as `wEntry1`. -/
def wEntry2 : AllocationInfo :=
  { labels := [("k2", "v2")]
    antiAffinityAnnotPresent := false
    parsedAffinity := some { affinity := none, antiAffinity := none } }

/-- One-node topology for the C8 evaluation. -/
def wTopoC8 : CPUTopology :=
  { numCPUs := 4, numNUMANodes := 1, numSockets := 1, socketMap := [(0, 0)] }

/-- Snapshot whose node 0 hosts one pod with the two container entries. -/
def wMsC8 : MachineState :=
  [(0, some { totalCPUs := {0, 1, 2, 3}, allocatedCPUSet := ∅,
              podEntries := [[wEntry1, wEntry2]] })]

/-- C8 as written fails on the code: `wEntry2` is resident on node 0 and
carries label k2=v2, yet the collected per-node aggregated labels hold
no value for k2 — the container loop breaks after each pod's first
entry, so later entries' labels are never merged. -/
theorem claimC8_counterexample :
    (((msLookup wMsC8 0).map NUMANodeState.podEntries).getD [] = [[wEntry1, wEntry2]]) ∧
    ("k2", "v2") ∈ wEntry2.labels ∧
    getNumaNodesAffinityInfo wTopoC8 wMsC8 =
      .ok [{ labels := [("k1", ["v1"])], socketID := 0, numaID := 0,
             antiAffinityRequiredSelectors := [] }] ∧
    List.lookup "k2" [("k1", ["v1"])] = none := by
  refine ⟨by decide, by decide, by decide, by decide⟩

end Katalyst
